import Mathlib

/-
Shallow embedding of `src/gym_like/envs/card_game/easy_21.py` (class `Easy21`).

The environment's mutable fields `self.score["player"]` / `self.score["dealer"]`
become an explicit `Score` value threaded through the operations.  The injected
randomness source (`self.np_random`) is modelled by passing its raw outputs
explicitly: `randint(lo, hi)` maps an arbitrary source output `x : Nat` into
`[lo, hi)`, and `choice([-1, 1], p=[0.3333, 0.6667])` maps a Boolean source
output to a card colour.  In-game card draws consumed by `step` are threaded as
a list of already-signed deltas (each produced by `draw_card`).  Python
`assert` failures are modelled as `Except` errors / `Option.none`.
-/

namespace Easy21

/-- The two score fields of `self.score` (`"player"` and `"dealer"` keys). -/
structure Score where
  player : Int
  dealer : Int
deriving Repr, DecidableEq

/-- Embeds `Easy21._is_bust`: `score < 1 or score > 21`. -/
def is_bust (score : Int) : Bool := score < 1 || score > 21

/-- Embeds `spaces.Discrete(2).contains` used by the assert in `Easy21.step`. -/
def action_space_contains (a : Int) : Bool := 0 ≤ a && a < 2

/-- Embeds `spaces.MultiDiscrete([22, 11]).contains`: each component in `[0, n)`. -/
def observation_space_contains (ob : Int × Int) : Bool :=
  0 ≤ ob.1 && ob.1 < 22 && 0 ≤ ob.2 && ob.2 < 11

/-- Embeds `self.np_random.randint(lo, hi)`: a uniform integer in `[lo, hi)`,
as a function of one raw output `x` of the randomness source. -/
def randint (lo hi : Nat) (x : Nat) : Nat := lo + x % (hi - lo)

/-- Embeds `self.np_random.choice([-1, 1], p=[0.3333, 0.6667])`: the card
colour, as a function of one Boolean output of the randomness source
(`true` selects black `= 1`, `false` selects red `= -1`). -/
def choice_card_type (u : Bool) : Int := if u then 1 else -1

/-- Embeds `Easy21._draw_card`: `card_type * card_idx` with
`card_idx = randint(2, 11)`. -/
def draw_card (u : Bool) (x : Nat) : Int :=
  choice_card_type u * (randint 2 11 x : Int)

/-- The set of signed deltas `_draw_card` can actually return, over all states
of the randomness source. -/
def ValidDraw (c : Int) : Prop := ∃ u x, draw_card u x = c

/-- Decidable check that a delta is in the support of `_draw_card`. -/
def drawOk (c : Int) : Bool := 2 ≤ c.natAbs && c.natAbs ≤ 10

/-- Embeds `Easy21._get_observation`. -/
def get_observation (sc : Score) : Int × Int := (sc.player, sc.dealer)

/-- Embeds `Easy21._draw_hand`: both sums set by `randint(2, 11)`; returns the
observation together with the new score. -/
def draw_hand (x y : Nat) : (Int × Int) × Score :=
  let sc : Score := ⟨(randint 2 11 x : Int), (randint 2 11 y : Int)⟩
  (get_observation sc, sc)

/-- Embeds `Easy21.reset`: just `_draw_hand`; the previous score is overwritten
and never read. -/
def reset (_prev : Score) (x y : Nat) : (Int × Int) × Score := draw_hand x y

/-- The `caller` argument of `_get_reward_and_terminator`. -/
inductive Caller
| player
| dealer
deriving Repr, DecidableEq

/-- Embeds `Easy21._get_reward_and_terminator`.  `none` models the failure of
the assert `self._is_bust(self.score["player"]) is False` ("Player already
goes bust.") on the dealer branch.  `np.sign` becomes `Int.sign`. -/
def get_reward_and_terminator (sc : Score) : Caller → Option (Int × Bool)
  | .player =>
    if is_bust sc.player then some (-1, true) else some (0, false)
  | .dealer =>
    if is_bust sc.player then none
    else if is_bust sc.dealer then some (1, true)
    else some (Int.sign (sc.player - sc.dealer), true)

/-- Embeds the dealer auto-play loop in `Easy21.step`:
`while 1 <= self.score["dealer"] < 17: self.score["dealer"] += self._draw_card()`,
consuming signed deltas from a list.  Returns the final dealer sum and the
unconsumed deltas; `none` when the list is exhausted with the loop condition
still true (the supplied prefix of the random stream was too short). -/
def dealerPlay : Int → List Int → Option (Int × List Int)
  | d, [] => if 1 ≤ d ∧ d < 17 then none else some (d, [])
  | d, c :: rest =>
    if 1 ≤ d ∧ d < 17 then dealerPlay (d + c) rest else some (d, c :: rest)

/-- Failure modes of `step`: the two Python asserts, plus exhaustion of the
supplied finite prefix of the random stream. -/
inductive StepErr
| invalidAction
| playerBustAssert
| outOfDraws
deriving Repr, DecidableEq

/-- What one `step` call yields: the returned `(observation, reward, done)`
triple, the updated score fields, and the unconsumed deltas. -/
structure StepResult where
  ob : Int × Int
  reward : Int
  done : Bool
  score : Score
  rest : List Int
deriving Repr, DecidableEq

/-- Embeds `Easy21.step`.  The assert on `action_space.contains` becomes the
`invalidAction` error; the truthiness test `if action:` selects hit for the
remaining nonzero action.  Hit consumes one delta; stick runs `dealerPlay` and
then resolves via `_get_reward_and_terminator("dealer")`. -/
def step (sc : Score) (action : Int) (draws : List Int) :
    Except StepErr StepResult :=
  if action_space_contains action then
    if action ≠ 0 then
      match draws with
      | [] => .error .outOfDraws
      | c :: rest =>
        let sc2 : Score := { sc with player := sc.player + c }
        match get_reward_and_terminator sc2 .player with
        | none => .error .playerBustAssert
        | some (reward, done) => .ok ⟨get_observation sc2, reward, done, sc2, rest⟩
    else
      match dealerPlay sc.dealer draws with
      | none => .error .outOfDraws
      | some (d2, rest) =>
        let sc2 : Score := { sc with dealer := d2 }
        match get_reward_and_terminator sc2 .dealer with
        | none => .error .playerBustAssert
        | some (reward, done) => .ok ⟨get_observation sc2, reward, done, sc2, rest⟩
  else .error .invalidAction

/-- Driving one engine through a whole action sequence, collecting each step's
`(observation, reward, done)`; stops at the first error. -/
def runSteps : Score → List Int → List Int →
    Except StepErr (List ((Int × Int) × Int × Bool))
  | _, [], _ => .ok []
  | sc, a :: acts, draws =>
    match step sc a draws with
    | .error e => .error e
    | .ok r =>
      match runSteps r.score acts r.rest with
      | .error e => .error e
      | .ok outs => .ok ((r.ob, r.reward, r.done) :: outs)

/-- A draw stream alternating red 2 and black 2, a possible output sequence of
the randomness source. -/
def altDraws : Nat → List Int
  | 0 => []
  | n + 1 => (if n % 2 = 0 then (-2 : Int) else 2) :: altDraws n

lemma action_space_contains_iff (a : Int) :
    action_space_contains a = true ↔ (a = 0 ∨ a = 1) := by
  simp only [action_space_contains, Bool.and_eq_true, decide_eq_true_eq]
  omega

/-- C2: a Hit step adds the signed delta to the player sum; bust yields
reward -1 and done, otherwise reward 0 and the episode continues. -/
theorem step_hit_spec (sc : Score) (c : Int) (rest : List Int) :
    step sc 1 (c :: rest) =
      .ok ⟨(sc.player + c, sc.dealer),
           if is_bust (sc.player + c) then -1 else 0,
           is_bust (sc.player + c),
           ⟨sc.player + c, sc.dealer⟩, rest⟩ := by
  obtain ⟨p, d⟩ := sc
  cases h : is_bust (p + c) <;>
    simp [step, get_reward_and_terminator, get_observation,
      action_space_contains, h]

/-- C5: `step` rejects any action outside `{0, 1}` with the contract-violation
error and returns no result; for actions in `{0, 1}` that check passes. -/
theorem step_action_guard (sc : Score) (a : Int) (draws : List Int) :
    (¬(a = 0 ∨ a = 1) → step sc a draws = .error .invalidAction) ∧
    ((a = 0 ∨ a = 1) → step sc a draws ≠ .error .invalidAction) := by
  constructor
  · intro h
    have hc : action_space_contains a = false := by
      rcases Bool.eq_false_or_eq_true (action_space_contains a) with h1 | h1
      · exact absurd ((action_space_contains_iff a).mp h1) h
      · exact h1
    simp [step, hc]
  · intro h
    have hc : action_space_contains a = true := (action_space_contains_iff a).mpr h
    simp only [step, hc, if_true]
    split
    all_goals try split
    all_goals try split
    all_goals simp

/-- C5 witness: action 3 is rejected, action 0 is not. -/
theorem step_action_guard_witness :
    step ⟨5, 5⟩ 3 [] = .error .invalidAction ∧
    step ⟨5, 5⟩ 0 [] ≠ .error .invalidAction :=
  ⟨(step_action_guard ⟨5, 5⟩ 3 []).1 (by decide),
   (step_action_guard ⟨5, 5⟩ 0 []).2 (by decide)⟩

/-- C6: resolving the dealer outcome with a bust player fails the
internal-consistency assert (returns no reward); with a non-bust player it
never fails. -/
theorem dealer_resolution_bust_guard (sc : Score) :
    (is_bust sc.player = true → get_reward_and_terminator sc .dealer = none) ∧
    (is_bust sc.player = false →
      (get_reward_and_terminator sc .dealer).isSome = true) := by
  constructor
  · intro h
    simp [get_reward_and_terminator, h]
  · intro h
    cases h2 : is_bust sc.dealer <;>
      simp [get_reward_and_terminator, h, h2]

/-- C6 witness: player 22 fails the dealer resolution, player 14 succeeds. -/
theorem dealer_resolution_bust_guard_witness :
    get_reward_and_terminator ⟨22, 5⟩ .dealer = none ∧
    (get_reward_and_terminator ⟨14, 5⟩ .dealer).isSome = true :=
  ⟨(dealer_resolution_bust_guard ⟨22, 5⟩).1 (by decide),
   (dealer_resolution_bust_guard ⟨14, 5⟩).2 (by decide)⟩

lemma randint_2_11_bounds (x : Nat) :
    2 ≤ randint 2 11 x ∧ randint 2 11 x ≤ 10 := by
  have h9 : x % 9 < 9 := Nat.mod_lt _ (by norm_num)
  simp only [randint]
  omega

lemma draw_card_natAbs (u : Bool) (x : Nat) :
    (draw_card u x).natAbs = randint 2 11 x := by
  cases u <;> simp [draw_card, choice_card_type]

/-- C1: with the player not bust, a Stick step resolves the dealer auto-play
loop to a final dealer sum `d2`, then returns done and reward `+1` on a dealer
bust, else `sign(player - dealer)`. -/
theorem step_stick_spec (sc : Score) (draws rest : List Int) (d2 : Int)
    (hp : is_bust sc.player = false)
    (hd : dealerPlay sc.dealer draws = some (d2, rest)) :
    step sc 0 draws =
      .ok ⟨(sc.player, d2),
           if is_bust d2 then 1 else Int.sign (sc.player - d2),
           true, ⟨sc.player, d2⟩, rest⟩ := by
  obtain ⟨p, d⟩ := sc
  cases h2 : is_bust d2 <;>
    simp [step, get_reward_and_terminator, get_observation,
      action_space_contains, hd, hp, h2]

/-- C1 witness: from `(14, 5)`, sticking with dealer draws `10, 10` busts the
dealer at 25 and pays `+1`. -/
theorem step_stick_spec_witness :
    step ⟨14, 5⟩ 0 [10, 10] = .ok ⟨(14, 25), 1, true, ⟨14, 25⟩, []⟩ := by
  have h := step_stick_spec ⟨14, 5⟩ [10, 10] [] 25 (by decide) (by decide)
  simpa [is_bust] using h

/-- C4: `reset` always succeeds, both dealt sums are in `[2, 10]`, the returned
observation is exactly the pair of new sums, and the result ignores the prior
episode's score entirely. -/
theorem reset_spec (prev prev2 : Score) (x y : Nat) :
    (2 ≤ (reset prev x y).2.player ∧ (reset prev x y).2.player ≤ 10) ∧
    (2 ≤ (reset prev x y).2.dealer ∧ (reset prev x y).2.dealer ≤ 10) ∧
    (reset prev x y).1 =
      ((reset prev x y).2.player, (reset prev x y).2.dealer) ∧
    reset prev x y = reset prev2 x y := by
  have hx : x % 9 < 9 := Nat.mod_lt _ (by norm_num)
  have hy : y % 9 < 9 := Nat.mod_lt _ (by norm_num)
  refine ⟨?_, ?_, rfl, rfl⟩ <;>
    · simp only [reset, draw_hand, randint, get_observation]
      push_cast
      omega

/-- C8 (amended): every observation returned by `reset` lies in the declared
`MultiDiscrete([22, 11])` observation space. -/
theorem reset_obs_in_space (prev : Score) (x y : Nat) :
    observation_space_contains (reset prev x y).1 = true := by
  have hx : x % 9 < 9 := Nat.mod_lt _ (by norm_num)
  have hy : y % 9 < 9 := Nat.mod_lt _ (by norm_num)
  simp only [reset, draw_hand, randint, get_observation,
    observation_space_contains, Bool.and_eq_true, decide_eq_true_eq]
  push_cast
  omega

/-- C8 counterexample: a reachable Stick step returns dealer sum 20, and the
observation `(10, 20)` lies outside the declared observation space. -/
theorem step_obs_out_of_space :
    (reset ⟨0, 0⟩ 8 8).2 = ⟨10, 10⟩ ∧ draw_card true 8 = 10 ∧
    step ⟨10, 10⟩ 0 [10] = .ok ⟨(10, 20), -1, true, ⟨10, 20⟩, []⟩ ∧
    observation_space_contains (10, 20) = false :=
  ⟨by decide, by decide, by rfl, by decide⟩

/-- C3 (amended): the support of `_draw_card` is exactly the signed deltas of
magnitude in `[2, 10]` — the same `randint(2, 11)` magnitude range as the
initial deal, not `[1, 10]`. -/
theorem draw_card_support (c : Int) :
    ValidDraw c ↔ (2 ≤ c.natAbs ∧ c.natAbs ≤ 10) := by
  constructor
  · rintro ⟨u, x, rfl⟩
    rw [draw_card_natAbs]
    exact randint_2_11_bounds x
  · rintro ⟨h2, h10⟩
    have hm : (c.natAbs - 2) % 9 = c.natAbs - 2 := Nat.mod_eq_of_lt (by omega)
    have hsum : 2 + (c.natAbs - 2) % 9 = c.natAbs := by omega
    rcases Int.natAbs_eq c with hc | hc
    · refine ⟨true, c.natAbs - 2, ?_⟩
      simp only [draw_card, choice_card_type, randint, if_true, hsum, one_mul]
      exact hc.symm
    · refine ⟨false, c.natAbs - 2, ?_⟩
      simp only [draw_card, choice_card_type, randint, hsum]
      rw [if_neg (by decide)]
      omega

/-- C3 witness: `-7` (a red 7) is in the support of `_draw_card`. -/
theorem draw_card_support_witness : ValidDraw (-7) :=
  (draw_card_support (-7)).mpr (by decide)

/-- C3 counterexample: no state of the randomness source makes `_draw_card`
return a delta of magnitude 1. -/
theorem draw_card_no_unit_delta : ¬ ValidDraw 1 ∧ ¬ ValidDraw (-1) := by
  constructor <;>
    · rintro ⟨u, x, h⟩
      have hb := randint_2_11_bounds x
      have ha := draw_card_natAbs u x
      rw [h] at ha
      simp at ha
      omega

lemma dealerPlay_ne_none_of_black (draws : List Int) :
    ∀ d : Int, (∀ c ∈ draws, 2 ≤ c) → (17 : Int) ≤ d + 2 * draws.length →
    dealerPlay d draws ≠ none := by
  induction draws with
  | nil =>
    intro d _ hge
    simp only [dealerPlay, List.length_nil] at hge ⊢
    rw [if_neg (by push_cast at hge; omega)]
    simp
  | cons c rest ih =>
    intro d hall hge
    simp only [dealerPlay]
    split
    · apply ih
      · exact fun c2 hc2 => hall c2 (List.mem_cons_of_mem _ hc2)
      · have hc : 2 ≤ c := hall c (List.mem_cons_self _ _)
        simp only [List.length_cons] at hge
        push_cast at hge ⊢
        omega
    · simp

/-- C7 (amended): a run of only black cards strictly increases the dealer sum
by at least 2 each iteration, so the auto-play loop finishes within 8 draws;
(red cards can decrease the sum, so this bound needs the all-black
hypothesis). -/
theorem dealer_loop_black_terminates (d : Int) (draws : List Int)
    (hlen : 8 ≤ draws.length) (hblack : ∀ c ∈ draws, 2 ≤ c) :
    dealerPlay d draws ≠ none := by
  by_cases hd : 1 ≤ d ∧ d < 17
  · apply dealerPlay_ne_none_of_black draws d hblack
    omega
  · cases draws with
    | nil => simp [dealerPlay, hd]
    | cons c rest => simp [dealerPlay, hd]

/-- C7 witness: from dealer sum 1, eight black 2s finish the loop. -/
theorem dealer_loop_black_terminates_witness :
    dealerPlay 1 [2, 2, 2, 2, 2, 2, 2, 2] ≠ none :=
  dealer_loop_black_terminates 1 [2, 2, 2, 2, 2, 2, 2, 2]
    (by decide) (by decide)

/-- C7 counterexample: a red 2 is a possible draw; one loop iteration from
dealer sum 10 with it yields 8 — a strict decrease that is neither a bust nor
an exit of the loop — and 100 valid alternating draws leave the loop still
running, so no iteration bound covers every draw sequence. -/
theorem dealer_loop_not_monotone :
    draw_card false 0 = -2 ∧ (10 : Int) + -2 = 8 ∧ is_bust 8 = false ∧
    ((1 : Int) ≤ 8 ∧ (8 : Int) < 17) ∧
    (altDraws 100).all drawOk = true ∧
    dealerPlay 10 (altDraws 100) = none := by
  refine ⟨by decide, by decide, by decide, by decide, by decide, by decide⟩

/-- C9: two engines given identical seed-derived randomness outputs and the
identical action sequence return the same reset observation and identical
(observation, reward, done) sequences, whatever their prior scores were. -/
theorem engines_deterministic (prev1 prev2 : Score) (x1 x2 y1 y2 : Nat)
    (acts1 acts2 draws1 draws2 : List Int)
    (hx : x1 = x2) (hy : y1 = y2) (ha : acts1 = acts2) (hd : draws1 = draws2) :
    reset prev1 x1 y1 = reset prev2 x2 y2 ∧
    runSteps (reset prev1 x1 y1).2 acts1 draws1 =
      runSteps (reset prev2 x2 y2).2 acts2 draws2 := by
  subst hx hy ha hd
  exact ⟨rfl, rfl⟩

/-- C9 witness: engines with different prior scores, same seed outputs and
actions, agree. -/
theorem engines_deterministic_witness :
    reset ⟨0, 0⟩ 3 4 = reset ⟨22, 5⟩ 3 4 ∧
    runSteps (reset ⟨0, 0⟩ 3 4).2 [1] [5] =
      runSteps (reset ⟨22, 5⟩ 3 4).2 [1] [5] :=
  engines_deterministic ⟨0, 0⟩ ⟨22, 5⟩ 3 3 4 4 [1] [1] [5] [5]
    rfl rfl rfl rfl

/-- C10: a successful Hit step never changes the dealer sum, and a successful
Stick step never changes the player sum, in both the stored score and the
returned observation. -/
theorem step_frame (sc : Score) (draws : List Int) (r : StepResult) :
    (step sc 1 draws = .ok r →
      r.score.dealer = sc.dealer ∧ r.ob.2 = sc.dealer) ∧
    (step sc 0 draws = .ok r →
      r.score.player = sc.player ∧ r.ob.1 = sc.player) := by
  constructor
  · intro h
    simp only [step] at h
    rw [if_pos (by decide), if_pos (by decide)] at h
    split at h
    · exact Except.noConfusion h
    · split at h
      · exact Except.noConfusion h
      · injection h with h2
        subst h2
        exact ⟨rfl, rfl⟩
  · intro h
    simp only [step] at h
    rw [if_pos (by decide), if_neg (by decide)] at h
    split at h
    · exact Except.noConfusion h
    · split at h
      · exact Except.noConfusion h
      · injection h with h2
        subst h2
        exact ⟨rfl, rfl⟩

/-- C10 witness: a concrete hit keeps the dealer at 5; a concrete stick keeps
the player at 5. -/
theorem step_frame_witness :
    ((⟨(8, 5), 0, false, ⟨8, 5⟩, []⟩ : StepResult).score.dealer = 5 ∧
     (⟨(8, 5), 0, false, ⟨8, 5⟩, []⟩ : StepResult).ob.2 = 5) ∧
    ((⟨(5, 19), -1, true, ⟨5, 19⟩, []⟩ : StepResult).score.player = 5 ∧
     (⟨(5, 19), -1, true, ⟨5, 19⟩, []⟩ : StepResult).ob.1 = 5) :=
  ⟨(step_frame ⟨5, 5⟩ [3] ⟨(8, 5), 0, false, ⟨8, 5⟩, []⟩).1 (by rfl),
   (step_frame ⟨5, 16⟩ [3] ⟨(5, 19), -1, true, ⟨5, 19⟩, []⟩).2 (by rfl)⟩

end Easy21
